import Mathlib

/-!
Verification of the disaster-intelligence aggregation pipeline.

This file shallowly embeds the JavaScript services of the repository
(official-updates aggregation, social-media aggregation, cache layer)
into Lean 4 and proves or refutes the behavioural claims made about them.

Strings are modelled as lists of natural-number character codes
(`Str := List Nat`), mirroring JavaScript's view of strings as sequences
of UTF-16 code units (`charCodeAt` returns exactly these numbers).
Numeric scores and timestamps are modelled over `ℚ` with the intended
real-number semantics of the JavaScript arithmetic.
-/

/-- A JavaScript string: a sequence of character codes. -/
abbrev Str : Type := List Nat

/-- Character codes of a Lean string literal, for writing concrete inputs. -/
def strOf (s : String) : Str := s.data.map Char.toNat

/-- ASCII lower-casing of one character code, as performed by
`String.prototype.toLowerCase` on ASCII text. -/
def lcChar (c : Nat) : Nat := if 65 ≤ c ∧ c ≤ 90 then c + 32 else c

/-- Lower-case a string (`text.toLowerCase()`). -/
def toLowerL (s : Str) : Str := s.map lcChar

/-- Whether `p` is a prefix of `s`, executable. -/
def isPrefixL : Str → Str → Bool
  | [], _ => true
  | _ :: _, [] => false
  | a :: p, b :: s => a = b && isPrefixL p s

/-- Whether `s` contains `p` as a contiguous substring
(`s.includes(p)` in JavaScript; the empty pattern always matches). -/
def containsSub (s p : Str) : Bool :=
  match s with
  | [] => p.isEmpty
  | _ :: rest => isPrefixL p s || containsSub rest p

/-- JavaScript whitespace test for the characters relevant here
(space, tab, line feed, carriage return). -/
def isWsCode (c : Nat) : Bool := c = 32 || c = 9 || c = 10 || c = 13

/-- Strip leading and trailing whitespace (`part.trim()`). -/
def trimL (s : Str) : Str :=
  ((s.dropWhile isWsCode).reverse.dropWhile isWsCode).reverse

/-- Split a string on a separator code (`text.split(',')` with code 44). -/
def splitOnCode (sep : Nat) (s : Str) : List Str :=
  match s with
  | [] => [[]]
  | c :: rest =>
    let r := splitOnCode sep rest
    if c = sep then [] :: r
    else match r with
      | [] => [[c]]
      | h :: t => (c :: h) :: t

/-- Truthiness of an optional string in JavaScript: `undefined`, `null`
and the empty string are falsy. -/
def truthyStr : Option Str → Bool
  | none => false
  | some s => !s.isEmpty

section SortModel

variable {α κ : Type} [LinearOrder κ]

/-- One insertion step of the stable descending-by-key sort. The new
element `x` is placed before the first element whose key is strictly
smaller, hence after every earlier element with an equal key. -/
def insertByKey (key : α → κ) (x : α) : List α → List α
  | [] => [x]
  | y :: ys => if key y < key x then x :: y :: ys else y :: insertByKey key x ys

/-- Stable sort in descending key order, modelling JavaScript's
`Array.prototype.sort` (stable per the ECMAScript specification) with a
comparator `(a, b) => keyB - keyA`: elements are processed in input
order and each is inserted after all existing elements of equal key. -/
def sortByKeyDesc (key : α → κ) (l : List α) : List α :=
  l.foldl (fun acc x => insertByKey key x acc) []

theorem mem_insertByKey (key : α → κ) (x a : α) (l : List α) :
    a ∈ insertByKey key x l ↔ a = x ∨ a ∈ l := by
  induction l with
  | nil => simp [insertByKey]
  | cons y ys ih =>
    by_cases h : key y < key x
    · simp only [insertByKey, if_pos h, List.mem_cons]
    · simp only [insertByKey, if_neg h, List.mem_cons, ih]
      tauto

theorem insertByKey_perm (key : α → κ) (x : α) (l : List α) :
    (insertByKey key x l).Perm (x :: l) := by
  induction l with
  | nil => simp [insertByKey]
  | cons y ys ih =>
    by_cases h : key y < key x
    · simp [insertByKey, h]
    · simp only [insertByKey, if_neg h]
      exact (ih.cons y).trans (List.Perm.swap x y ys)

theorem pairwise_insertByKey (key : α → κ) (x : α) (l : List α)
    (h : l.Pairwise (fun a b => key b ≤ key a)) :
    (insertByKey key x l).Pairwise (fun a b => key b ≤ key a) := by
  induction l with
  | nil => simp [insertByKey]
  | cons y ys ih =>
    rcases List.pairwise_cons.mp h with ⟨hy, hys⟩
    by_cases hk : key y < key x
    · simp only [insertByKey, if_pos hk]
      refine List.pairwise_cons.mpr ⟨?_, h⟩
      intro b hb
      rcases List.mem_cons.mp hb with rfl | hb
      · exact le_of_lt hk
      · exact le_trans (hy b hb) (le_of_lt hk)
    · simp only [insertByKey, if_neg hk]
      refine List.pairwise_cons.mpr ⟨?_, ih hys⟩
      intro b hb
      rcases (mem_insertByKey key x b ys).mp hb with rfl | hb
      · exact not_lt.mp hk
      · exact hy b hb

theorem foldl_insertByKey_pairwise (key : α → κ) :
    ∀ (l acc : List α), acc.Pairwise (fun a b => key b ≤ key a) →
      (l.foldl (fun acc x => insertByKey key x acc) acc).Pairwise
        (fun a b => key b ≤ key a) := by
  intro l
  induction l with
  | nil => intro acc h; simpa using h
  | cons x xs ih =>
    intro acc h
    exact ih (insertByKey key x acc) (pairwise_insertByKey key x acc h)

/-- The stable sort produces a list whose keys are non-increasing. -/
theorem sortByKeyDesc_pairwise (key : α → κ) (l : List α) :
    (sortByKeyDesc key l).Pairwise (fun a b => key b ≤ key a) :=
  foldl_insertByKey_pairwise key l [] (by simp)

theorem foldl_insertByKey_perm (key : α → κ) :
    ∀ (l acc : List α),
      (l.foldl (fun acc x => insertByKey key x acc) acc).Perm (acc ++ l) := by
  intro l
  induction l with
  | nil => intro acc; simp
  | cons x xs ih =>
    intro acc
    refine ((ih (insertByKey key x acc)).trans ?_)
    refine (List.Perm.append_right xs (insertByKey_perm key x acc)).trans ?_
    exact List.perm_middle.symm

/-- The stable sort permutes its input. -/
theorem sortByKeyDesc_perm (key : α → κ) (l : List α) :
    (sortByKeyDesc key l).Perm l := by
  simpa using foldl_insertByKey_perm key l []

theorem filter_insertByKey (key : α → κ) (x : α) (l : List α) (k : κ)
    (h : l.Pairwise (fun a b => key b ≤ key a)) :
    (insertByKey key x l).filter (fun a => decide (key a = k)) =
      l.filter (fun a => decide (key a = k)) ++
        (if key x = k then [x] else []) := by
  induction l with
  | nil =>
    by_cases hx : key x = k <;> simp [insertByKey, List.filter, hx]
  | cons y ys ih =>
    rcases List.pairwise_cons.mp h with ⟨hy, hys⟩
    by_cases hk : key y < key x
    · simp only [insertByKey, if_pos hk]
      by_cases hx : key x = k
      · have hnil : (y :: ys).filter (fun a => decide (key a = k)) = [] := by
          apply List.filter_eq_nil_iff.mpr
          intro b hb
          rcases List.mem_cons.mp hb with rfl | hb
          · simp only [decide_eq_true_eq]
            intro hbk
            rw [hbk, ← hx] at hk
            exact absurd hk (lt_irrefl _)
          · simp only [decide_eq_true_eq]
            intro hbk
            have hbx : key b = key x := by rw [hbk, hx]
            have hlt : key b < key x := lt_of_le_of_lt (hy b hb) hk
            rw [hbx] at hlt
            exact absurd hlt (lt_irrefl _)
        rw [List.filter_cons_of_pos (by simpa using hx), hnil, if_pos hx]
        rfl
      · rw [List.filter_cons_of_neg (by simpa using hx), if_neg hx,
          List.append_nil]
    · simp only [insertByKey, if_neg hk]
      by_cases hyk : key y = k
      · rw [List.filter_cons_of_pos (by simpa using hyk),
          List.filter_cons_of_pos (by simpa using hyk), ih hys,
          List.cons_append]
      · rw [List.filter_cons_of_neg (by simpa using hyk),
          List.filter_cons_of_neg (by simpa using hyk), ih hys]

theorem foldl_insertByKey_filter (key : α → κ) (k : κ) :
    ∀ (l acc : List α), acc.Pairwise (fun a b => key b ≤ key a) →
      (l.foldl (fun acc x => insertByKey key x acc) acc).filter
          (fun a => decide (key a = k)) =
        acc.filter (fun a => decide (key a = k)) ++
          l.filter (fun a => decide (key a = k)) := by
  intro l
  induction l with
  | nil => intro acc _; simp
  | cons x xs ih =>
    intro acc h
    rw [List.foldl_cons, ih (insertByKey key x acc)
        (pairwise_insertByKey key x acc h),
      filter_insertByKey key x acc k h, List.append_assoc]
    congr 1
    by_cases hx : key x = k
    · rw [List.filter_cons_of_pos (by simpa using hx), if_pos hx]
      rfl
    · rw [List.filter_cons_of_neg (by simpa using hx), if_neg hx]
      rfl

/-- Stability of the sort: elements sharing any fixed key value appear in
the output in exactly their input order. -/
theorem sortByKeyDesc_filter (key : α → κ) (l : List α) (k : κ) :
    (sortByKeyDesc key l).filter (fun a => decide (key a = k)) =
      l.filter (fun a => decide (key a = k)) := by
  simpa using foldl_insertByKey_filter key k l [] (by simp)

end SortModel

/-! ## Data model (spec.md section 3, from the source services) -/

/-- The `updateType` labels produced by `officialUpdates` (strings in the
source, modelled as an enumeration). -/
inductive UpdateType where
  | evacuation | alert | advisory | update | relief | general
  | warning | watch | statement
deriving DecidableEq, Repr

/-- The `classification` labels produced by `socialMedia.classifyPost`. -/
inductive Classification where
  | help_request | offer_help | information | general
deriving DecidableEq, Repr

/-- Disaster context handed to both pipelines. `tags` absent/undefined is
modelled as the empty list (behaviourally identical in every use site);
`location_name` keeps its JavaScript truthiness via `Option`, with the
empty string handled explicitly where the code tests truthiness. -/
structure Disaster where
  tags : List Str
  location_name : Option Str
deriving DecidableEq, Repr

/-- A normalized official update as built by the adapters in
`officialUpdates`. `publishedAt` is the millisecond timestamp of the
parsed date (`null`/unparseable dates are `none`); `priorityLevel` uses
`Option` so the JavaScript `update.priorityLevel || 1` default is
modelled faithfully. -/
structure Update where
  title : Str
  content : Str
  url : Option Str
  source : Str
  publishedAt : Option ℚ
  updateType : UpdateType
  priorityLevel : Option ℚ
  relevanceScore : ℚ := 0
deriving DecidableEq, Repr

/-- Engagement metrics of a social-media post. -/
structure Metrics where
  likes : ℕ
  retweets : ℕ
  replies : ℕ
deriving DecidableEq, Repr

/-- A social-media post. Raw posts from the adapters carry
`isUrgent := false` (the field is absent, hence falsy, in JavaScript);
`processPost` fills it in. Fields the claims never touch
(`keywords`, `processedAt`, `authorId`, `url`) are omitted. -/
structure Post where
  id : Str
  content : Str
  author : Str
  createdAt : ℚ
  platform : Str
  metrics : Option Metrics
  verified : Bool
  isUrgent : Bool := false
  classification : Classification := Classification.general
  relevanceScore : ℚ := 0
deriving DecidableEq, Repr

/-! ## Official updates service (`OfficialUpdatesService`) -/

/-- The `disasterKeywords` list of `OfficialUpdatesService`. -/
def officialDisasterKeywords : List Str :=
  [strOf "emergency", strOf "disaster", strOf "flood", strOf "flooding",
   strOf "hurricane", strOf "tornado", strOf "earthquake", strOf "wildfire",
   strOf "fire", strOf "storm", strOf "evacuation", strOf "warning",
   strOf "watch", strOf "alert", strOf "advisory", strOf "relief",
   strOf "response", strOf "recovery", strOf "preparedness", strOf "safety"]

/-- Lower-cased `title + ' ' + content` used by filtering and ranking. -/
def updateText (u : Update) : Str := toLowerL (u.title ++ [32] ++ u.content)

/-- `isWithinTimeWindow(date, timeWindow)`: `null` dates are included,
otherwise the date must be at least `now - timeWindow` hours. -/
def isWithinTimeWindow (date : Option ℚ) (timeWindow now : ℚ) : Bool :=
  match date with
  | none => true
  | some d => decide (now - timeWindow * 60 * 60 * 1000 ≤ d)

/-- `classifyUpdateType(title)`: first-match classification of a title. -/
def classifyUpdateType (title : Str) : UpdateType :=
  let t := toLowerL title
  if containsSub t (strOf "evacuation") then UpdateType.evacuation
  else if containsSub t (strOf "warning") || containsSub t (strOf "alert") then
    UpdateType.alert
  else if containsSub t (strOf "advisory") then UpdateType.advisory
  else if containsSub t (strOf "update") || containsSub t (strOf "status") then
    UpdateType.update
  else if containsSub t (strOf "relief") || containsSub t (strOf "aid") then
    UpdateType.relief
  else UpdateType.general

/-- The relevance-filter predicate of `filterRelevantUpdates`: a disaster
keyword, a disaster tag, or the disaster's location name must occur in
the lower-cased title+content. -/
def relevantPred (u : Update) (d : Disaster) : Bool :=
  let content := updateText u
  officialDisasterKeywords.any (fun kw => containsSub content (toLowerL kw))
  || d.tags.any (fun tag => containsSub content (toLowerL tag))
  || (match d.location_name with
      | none => false
      | some l => !l.isEmpty && containsSub content (toLowerL l))

/-- `filterRelevantUpdates(updates, disaster)`. -/
def filterRelevantUpdates (updates : List Update) (d : Disaster) : List Update :=
  updates.filter (fun u => relevantPred u d)

/-- Tag term of `rankUpdatesByRelevance`: 0.3 per tag occurring in the
lower-cased text. -/
def tagBonus (u : Update) (d : Disaster) : ℚ :=
  (3/10) * ((d.tags.filter
    (fun tag => containsSub (updateText u) (toLowerL tag))).length : ℚ)

/-- Location term of `rankUpdatesByRelevance`: 0.4 when the (truthy)
location name occurs in the lower-cased text. -/
def locBonus (u : Update) (d : Disaster) : ℚ :=
  match d.location_name with
  | none => 0
  | some l =>
    if !l.isEmpty && containsSub (updateText u) (toLowerL l) then 2/5 else 0

/-- Priority term: `(update.priorityLevel || 1) * 0.1`. -/
def priBonus (u : Update) : ℚ :=
  (match u.priorityLevel with
   | none => 1
   | some p => if p = 0 then 1 else p) * (1/10)

/-- Recency term: +0.2 under 24 hours of age, +0.1 under 48; an absent
`publishedAt` gives NaN age in JavaScript, so neither branch fires. -/
def recBonus (u : Update) (now : ℚ) : ℚ :=
  match u.publishedAt with
  | none => 0
  | some t =>
    if (now - t) / (1000 * 60 * 60) < 24 then 1/5
    else if (now - t) / (1000 * 60 * 60) < 48 then 1/10
    else 0

/-- The relevance score computed inside `rankUpdatesByRelevance`. -/
def relScore (u : Update) (d : Disaster) (now : ℚ) : ℚ :=
  tagBonus u d + locBonus u d + priBonus u + recBonus u now

/-- `rankUpdatesByRelevance(updates, disaster)`: attach scores, then sort
with the stable comparator `(a, b) => b.relevanceScore - a.relevanceScore`. -/
def rankUpdatesByRelevance (updates : List Update) (d : Disaster) (now : ℚ) :
    List Update :=
  sortByKeyDesc (fun u => u.relevanceScore)
    (updates.map (fun u => { u with relevanceScore := relScore u d now }))

/-- The cache-miss body of `fetchUpdates`: each selected source's outcome
is either a list of raw updates or a failure; per-source failures are
caught inside the fan-out promise and contribute an empty list (the
`source` field of each surviving update is overwritten with the source
key); the merged list is filtered, ranked and truncated. -/
def fetchUpdatesBody (sourceResults : List (Str × Except Str (List Update)))
    (d : Disaster) (maxResults : ℕ) (now : ℚ) : List Update :=
  let allUpdates := (sourceResults.map (fun kr =>
    match kr.2 with
    | Except.ok us => us.map (fun u => { u with source := kr.1 })
    | Except.error _ => [])).flatten
  (rankUpdatesByRelevance (filterRelevantUpdates allUpdates d) d now).take
    maxResults

/-! ## Social media service (`SocialMediaService`) -/

/-- The `urgentKeywords` list of `SocialMediaService`. -/
def urgentKeywords : List Str :=
  [strOf "urgent", strOf "sos", strOf "emergency", strOf "help",
   strOf "trapped", strOf "stranded", strOf "life threatening",
   strOf "critical", strOf "immediate", strOf "now", strOf "asap"]

/-- `detectUrgency(content)`: the case-insensitive alternation regex over
the urgent keywords matches somewhere in the content. -/
def detectUrgency (content : Str) : Bool :=
  urgentKeywords.any (fun k => containsSub (toLowerL content) k)

/-- Patterns of the `help_request` rule of `classifyPost`. -/
def helpPatterns : List Str :=
  [strOf "help", strOf "assistance", strOf "need", strOf "trapped",
   strOf "stranded"]

/-- Patterns of the `offer_help` rule of `classifyPost`. -/
def offerPatterns : List Str :=
  [strOf "offering", strOf "volunteer", strOf "donate", strOf "shelter",
   strOf "supplies"]

/-- Patterns of the `information` rule of `classifyPost`. -/
def infoPatterns : List Str :=
  [strOf "update", strOf "report", strOf "status", strOf "confirmed",
   strOf "official"]

/-- `classifyPost(content)`: first-match classification with the rule
order help_request, offer_help, information, default general (each rule a
case-insensitive alternation regex). -/
def classifyPost (content : Str) : Classification :=
  let c := toLowerL content
  if helpPatterns.any (fun p => containsSub c p) then Classification.help_request
  else if offerPatterns.any (fun p => containsSub c p) then
    Classification.offer_help
  else if infoPatterns.any (fun p => containsSub c p) then
    Classification.information
  else Classification.general

/-- Tag term of `calculateRelevance`: 0.2 per disaster tag occurring in
the lower-cased post content. -/
def postTagPart (p : Post) (d : Disaster) : ℚ :=
  (1/5) * ((d.tags.filter
    (fun tag => containsSub (toLowerL p.content) (toLowerL tag))).length : ℚ)

/-- Location term of `calculateRelevance`: 0.2 per comma-separated
fragment of the (truthy) location name whose trimmed form occurs in the
lower-cased post content. -/
def postLocPart (p : Post) (d : Disaster) : ℚ :=
  match d.location_name with
  | none => 0
  | some l =>
    if l.isEmpty then 0
    else (1/5) * (((splitOnCode 44 (toLowerL l)).filter
      (fun part => containsSub (toLowerL p.content) (trimL part))).length : ℚ)

/-- Urgency term of `calculateRelevance`: +0.3 for an urgent post. -/
def postUrgPart (p : Post) : ℚ := if p.isUrgent then 3/10 else 0

/-- Engagement term of `calculateRelevance`: +0.1 when likes+retweets
exceed 10 and a further +0.1 when they exceed 50. -/
def postEngPart (p : Post) : ℚ :=
  match p.metrics with
  | none => 0
  | some m =>
    (if 10 < m.likes + m.retweets then (1/10 : ℚ) else 0) +
    (if 50 < m.likes + m.retweets then (1/10 : ℚ) else 0)

/-- Verified-author term of `calculateRelevance`: +0.1. -/
def postVerPart (p : Post) : ℚ := if p.verified then 1/10 else 0

/-- `calculateRelevance(post, disaster)`: additive score starting at 0.5,
plus the tag, location, urgency, engagement and verified terms, capped
at 1.0. -/
def calculateRelevance (p : Post) (d : Disaster) : ℚ :=
  min ((1/2 : ℚ) + postTagPart p d + postLocPart p d + postUrgPart p +
    postEngPart p + postVerPart p) 1

/-- `processPost(post, disaster)`. Note the source passes the *original*
`post` (not the enriched copy) to `calculateRelevance`, so the score is
computed with the post's incoming `isUrgent` value; the Lean record
update has exactly this semantics. -/
def processPost (p : Post) (d : Disaster) : Post :=
  { p with
    isUrgent := detectUrgency p.content
    classification := classifyPost p.content
    relevanceScore := calculateRelevance p d }

/-- Sort key of the post sort in `fetchReports`: the comparator orders by
`isUrgent` first (urgent posts first) and then by more recent `createdAt`,
descending lexicographically. -/
def postSortKey (p : Post) : Lex (ℚ × ℚ) :=
  toLex ((if p.isUrgent then (1 : ℚ) else 0), p.createdAt)

/-- The cache-miss body of `fetchReports` once the provider has produced
its raw posts: enrich each post, sort by urgency then recency, truncate. -/
def fetchReportsBody (posts : List Post) (d : Disaster) (maxResults : ℕ) :
    List Post :=
  (sortByKeyDesc postSortKey (posts.map (fun p => processPost p d))).take
    maxResults

/-! ## Cache layer (`CacheManager`) -/

/-- A stored cache row (`key` is the lookup index of the store map). -/
structure CacheEntry (V : Type) where
  value : V
  expiresAt : ℚ
  hitCount : ℕ
  src : Option Str
deriving DecidableEq, Repr

/-- The cache table, as a map from keys to rows. -/
def CacheStore (V : Type) : Type := Str → Option (CacheEntry V)

/-- `get(key)`: `null` on a missing row; an expired row is deleted and
reported as `null`; a live row's hit counter is incremented and its value
returned. Returns the value outcome together with the updated store. -/
def cacheGet {V : Type} (st : CacheStore V) (key : Str) (now : ℚ) :
    Option V × CacheStore V :=
  match st key with
  | none => (none, st)
  | some e =>
    if e.expiresAt < now then
      (none, fun k => if k = key then none else st k)
    else
      (some e.value,
       fun k => if k = key then some { e with hitCount := e.hitCount + 1 }
                else st k)

/-- `set(key, value, ttl, source)`: upsert a fresh row expiring at
`now + (ttl || defaultTTL) * 1000` milliseconds with hit count 0. -/
def cacheSet {V : Type} (st : CacheStore V) (key : Str) (v : V)
    (ttl : Option ℚ) (defaultTTL : ℚ) (src : Option Str) (now : ℚ) :
    CacheStore V :=
  let t := match ttl with
    | none => defaultTTL
    | some x => if x = 0 then defaultTTL else x
  fun k => if k = key then some ⟨v, now + t * 1000, 0, src⟩ else st k

/-- `getOrSet(key, fetchFunction, ttl, source)`. The compute function is
modelled by its outcome: a thrown error (`Except.error`), a
`null`/`undefined` result (`Except.ok none`), or a proper value. The
result triple is (returned outcome, updated store, whether the compute
function was invoked). On a hit the cached value is returned and the
function is not invoked; on a miss the function's outcome is returned
unchanged (errors propagate) and proper values are stored. -/
def getOrSet {V E : Type} (st : CacheStore V) (key : Str)
    (fn : Except E (Option V)) (ttl : Option ℚ) (defaultTTL : ℚ)
    (src : Option Str) (now : ℚ) :
    Except E (Option V) × CacheStore V × Bool :=
  let g := cacheGet st key now
  match g.1 with
  | some v => (Except.ok (some v), g.2, false)
  | none =>
    match fn with
    | Except.error e => (Except.error e, g.2, true)
    | Except.ok none => (Except.ok none, g.2, true)
    | Except.ok (some v) =>
      (Except.ok (some v), cacheSet g.2 key v ttl defaultTTL src now, true)

/-- The 32-bit signed-integer truncation applied by JavaScript's bitwise
operators (`hash & hash`, `hash << 5`). -/
def toInt32 (n : ℤ) : ℤ := (n + 2 ^ 31) % 2 ^ 32 - 2 ^ 31

/-- One step of `hashString`'s loop:
`hash = ((hash << 5) - hash) + char; hash = hash & hash`. -/
def hashStep (h : ℤ) (c : ℕ) : ℤ := toInt32 (toInt32 (h * 32) - h + c)

/-- The accumulated 32-bit hash of a string. -/
def hashInt (s : Str) : ℤ := s.foldl hashStep 0

/-- Base-36 digit characters used by `Number.prototype.toString(36)`:
`0`–`9` then `a`–`z`. -/
def digit36 (d : ℕ) : ℕ := if d < 10 then 48 + d else 87 + d

/-- Big-endian base-36 digits of a positive number. -/
def toBase36Go (n : ℕ) : Str :=
  if n = 0 then [] else toBase36Go (n / 36) ++ [digit36 (n % 36)]
decreasing_by exact Nat.div_lt_self (Nat.pos_of_ne_zero (by assumption)) (by norm_num)

/-- `n.toString(36)` for a natural number. -/
def toBase36 (n : ℕ) : Str := if n = 0 then [48] else toBase36Go n

/-- `hashString(str)`: `Math.abs(hash).toString(36)`. -/
def hashString (s : Str) : Str := toBase36 (hashInt s).natAbs

/-- `generateKey(service, operation, input)` for a string input: inputs
longer than 100 characters are hashed, the three parts are joined with
`:` (code 58) and the whole key is lower-cased. -/
def generateKey (service operation input : Str) : Str :=
  let inputKey := if 100 < input.length then hashString input else input
  toLowerL (service ++ [58] ++ operation ++ [58] ++ inputKey)

/-! ## Shared facts about the post score terms -/

theorem postTagPart_nonneg (p : Post) (d : Disaster) : 0 ≤ postTagPart p d := by
  unfold postTagPart
  positivity

theorem postLocPart_nonneg (p : Post) (d : Disaster) : 0 ≤ postLocPart p d := by
  unfold postLocPart
  rcases d.location_name with _ | l
  · simp
  · cases h : l.isEmpty
    · simp only [h, Bool.false_eq_true, if_false]
      positivity
    · simp [h]

theorem postUrgPart_nonneg (p : Post) : 0 ≤ postUrgPart p := by
  unfold postUrgPart
  split_ifs <;> norm_num

theorem postEngPart_nonneg (p : Post) : 0 ≤ postEngPart p := by
  unfold postEngPart
  rcases p.metrics with _ | m
  · simp
  · dsimp only
    split_ifs <;> norm_num

theorem postVerPart_nonneg (p : Post) : 0 ≤ postVerPart p := by
  unfold postVerPart
  split_ifs <;> norm_num

/-! ## Claim theorems -/

/-- C3: the time-window filter retains a record exactly when its
`publishedAt` is null or at least `now - timeWindowHours`; a record dated
one second before the cutoff is excluded, one dated one second after is
included, and a null-dated record is always included. -/
theorem C3_time_window_filter (date : Option ℚ) (tw now : ℚ) :
    (isWithinTimeWindow date tw now = true ↔
      date = none ∨ ∃ d, date = some d ∧ now - tw * 3600000 ≤ d) ∧
    isWithinTimeWindow (some (now - tw * 3600000 - 1000)) tw now = false ∧
    isWithinTimeWindow (some (now - tw * 3600000 + 1000)) tw now = true ∧
    isWithinTimeWindow none tw now = true := by
  refine ⟨?_, ?_, ?_, rfl⟩
  · rcases date with _ | d
    · simp [isWithinTimeWindow]
    · simp only [isWithinTimeWindow, decide_eq_true_eq]
      constructor
      · intro h
        exact Or.inr ⟨d, rfl, by linarith⟩
      · rintro (h | ⟨d', hd', h⟩)
        · exact absurd h (by simp)
        · obtain rfl : d = d' := by injection hd'
          linarith
  · simp only [isWithinTimeWindow, decide_eq_false_iff_not, not_le]
    linarith
  · simp only [isWithinTimeWindow, decide_eq_true_eq]
    linarith

/-- C10: every computed post relevance score lies in the closed interval
from 0.5 to 1.0: the additive formula starts from the base 0.5, every
further term is non-negative, and the result is capped at 1.0. -/
theorem C10_post_score_bounds (p : Post) (d : Disaster) :
    1/2 ≤ calculateRelevance p d ∧ calculateRelevance p d ≤ 1 := by
  have h1 := postTagPart_nonneg p d
  have h2 := postLocPart_nonneg p d
  have h3 := postUrgPart_nonneg p
  have h4 := postEngPart_nonneg p
  have h5 := postVerPart_nonneg p
  unfold calculateRelevance
  constructor
  · exact le_min (by linarith) (by norm_num)
  · exact min_le_right _ _

/-- C9: relevance scoring is monotone in its signals. An update whose
lower-cased text contains a disaster tag ranks strictly above an
otherwise-identical update matching no tag; a post flagged `isUrgent`
scores exactly `min(nonUrgentScore + 0.3, 1.0)`, i.e. 0.3 higher up to
the 1.0 clamp. -/
theorem C9_score_monotonicity :
    (∀ (a b : Update) (d : Disaster) (now : ℚ),
      a.priorityLevel = b.priorityLevel →
      a.publishedAt = b.publishedAt →
      locBonus a d = locBonus b d →
      (∃ t ∈ d.tags, containsSub (updateText a) (toLowerL t) = true) →
      (∀ t ∈ d.tags, containsSub (updateText b) (toLowerL t) = false) →
      relScore b d now < relScore a d now) ∧
    (∀ (p : Post) (d : Disaster), p.isUrgent = false →
      calculateRelevance { p with isUrgent := true } d =
        min (calculateRelevance p d + 3/10) 1) := by
  constructor
  · intro a b d now hpri hpub hloc ⟨t, ht, hta⟩ htb
    have hb0 : tagBonus b d = 0 := by
      unfold tagBonus
      have : d.tags.filter
          (fun tag => containsSub (updateText b) (toLowerL tag)) = [] :=
        List.filter_eq_nil_iff.mpr (fun tag htag => by simp [htb tag htag])
      rw [this]
      simp
    have ha1 : 3/10 ≤ tagBonus a d := by
      unfold tagBonus
      have hmem : t ∈ d.tags.filter
          (fun tag => containsSub (updateText a) (toLowerL tag)) :=
        List.mem_filter.mpr ⟨ht, by simp [hta]⟩
      have hlen : 1 ≤ (d.tags.filter
          (fun tag => containsSub (updateText a) (toLowerL tag))).length :=
        List.length_pos.mpr (List.ne_nil_of_mem hmem)
      have : (1 : ℚ) ≤ ((d.tags.filter
          (fun tag => containsSub (updateText a) (toLowerL tag))).length : ℚ) := by
        exact_mod_cast hlen
      linarith
    have hpri' : priBonus a = priBonus b := by
      unfold priBonus
      rw [hpri]
    have hrec : recBonus a now = recBonus b now := by
      unfold recBonus
      rw [hpub]
    unfold relScore
    rw [hloc, hpri', hrec, hb0]
    linarith
  · intro p d hu
    have htag : postTagPart { p with isUrgent := true } d = postTagPart p d := rfl
    have hlocp : postLocPart { p with isUrgent := true } d = postLocPart p d := rfl
    have heng : postEngPart { p with isUrgent := true } = postEngPart p := rfl
    have hver : postVerPart { p with isUrgent := true } = postVerPart p := rfl
    have hu1 : postUrgPart { p with isUrgent := true } = 3/10 := by
      unfold postUrgPart
      simp
    have hu0 : postUrgPart p = 0 := by
      unfold postUrgPart
      simp [hu]
    unfold calculateRelevance
    rw [htag, hlocp, heng, hver, hu1, hu0]
    set s : ℚ := 1/2 + postTagPart p d + postLocPart p d + postEngPart p +
      postVerPart p with hs
    clear_value s
    have harr1 : 1/2 + postTagPart p d + postLocPart p d + 3/10 +
        postEngPart p + postVerPart p = s + 3/10 := by
      rw [hs]; ring
    have harr0 : 1/2 + postTagPart p d + postLocPart p d + 0 +
        postEngPart p + postVerPart p = s := by
      rw [hs]; ring
    rw [harr1, harr0]
    rcases le_total s 1 with h | h
    · rw [min_eq_left h]
    · rw [min_eq_right h, min_eq_right (by linarith), min_eq_right (by norm_num)]

/-- Witness for C9 at concrete inputs: an update whose title contains the
tag "flood" outranks an otherwise-identical one that does not, and
setting `isUrgent` on a concrete post raises its score by exactly 0.3
under the clamp. -/
theorem C9_score_monotonicity_witness :
    relScore ⟨strOf "x", [], none, [], none, UpdateType.general, some 1, 0⟩
        ⟨[strOf "flood"], none⟩ 0 <
      relScore ⟨strOf "flood", [], none, [], none, UpdateType.general, some 1, 0⟩
        ⟨[strOf "flood"], none⟩ 0 ∧
    calculateRelevance
        ⟨[], strOf "x", [], 0, [], none, false, true, Classification.general, 0⟩
        ⟨[], none⟩ =
      min (calculateRelevance
        ⟨[], strOf "x", [], 0, [], none, false, false, Classification.general, 0⟩
        ⟨[], none⟩ + 3/10) 1 :=
  ⟨C9_score_monotonicity.1
      ⟨strOf "flood", [], none, [], none, UpdateType.general, some 1, 0⟩
      ⟨strOf "x", [], none, [], none, UpdateType.general, some 1, 0⟩
      ⟨[strOf "flood"], none⟩ 0 rfl rfl rfl (by decide) (by decide),
   C9_score_monotonicity.2
      ⟨[], strOf "x", [], 0, [], none, false, false, Classification.general, 0⟩
      ⟨[], none⟩ rfl⟩

/-- The ordered rule table of `classifyUpdateType`, with one predicate
per rule in source order. -/
def updateRuleTable : List ((Str → Bool) × UpdateType) :=
  [(fun t => containsSub t (strOf "evacuation"), UpdateType.evacuation),
   (fun t => containsSub t (strOf "warning") || containsSub t (strOf "alert"),
    UpdateType.alert),
   (fun t => containsSub t (strOf "advisory"), UpdateType.advisory),
   (fun t => containsSub t (strOf "update") || containsSub t (strOf "status"),
    UpdateType.update),
   (fun t => containsSub t (strOf "relief") || containsSub t (strOf "aid"),
    UpdateType.relief)]

/-- The ordered rule table of `classifyPost`, in source order. -/
def postRuleTable : List ((Str → Bool) × Classification) :=
  [(fun c => helpPatterns.any (fun p => containsSub c p),
    Classification.help_request),
   (fun c => offerPatterns.any (fun p => containsSub c p),
    Classification.offer_help),
   (fun c => infoPatterns.any (fun p => containsSub c p),
    Classification.information)]

/-- First-match-wins evaluation of an ordered rule table. -/
def firstMatchLabel {L : Type} : List ((Str → Bool) × L) → L → Str → L
  | [], dflt, _ => dflt
  | (p, lab) :: rest, dflt, t =>
    if p t then lab else firstMatchLabel rest dflt t

/-- C8: both classifiers are deterministic first-match-wins rule tables
over the lower-cased text; `classifyUpdateType` evaluates its rules in
the fixed order evacuation, warning/alert, advisory, update/status,
relief/aid, default general, and a title matching the evacuation rule
never receives a later rule's label. -/
theorem C8_classification_rule_tables :
    (∀ title : Str, classifyUpdateType title =
      firstMatchLabel updateRuleTable UpdateType.general (toLowerL title)) ∧
    (∀ title : Str, containsSub (toLowerL title) (strOf "evacuation") = true →
      classifyUpdateType title = UpdateType.evacuation) ∧
    (∀ content : Str, classifyPost content =
      firstMatchLabel postRuleTable Classification.general (toLowerL content)) := by
  refine ⟨fun title => rfl, fun title h => ?_, fun content => rfl⟩
  unfold classifyUpdateType
  simp only [h, if_true]

/-- Witness for C8: a title matching both the evacuation and the
warning rules is labelled by the earlier evacuation rule. -/
theorem C8_classification_rule_tables_witness :
    containsSub (toLowerL (strOf "Evacuation warning issued"))
        (strOf "evacuation") = true ∧
    classifyUpdateType (strOf "Evacuation warning issued") =
      UpdateType.evacuation :=
  ⟨by decide,
   C8_classification_rule_tables.2.1 (strOf "Evacuation warning issued")
     (by decide)⟩

/-- C5: two `getOrSet` calls for the same key within the TTL invoke the
compute function exactly once — the first call invokes it and stores the
value, the second returns the cached value, increments the hit counter
and does not invoke its compute function — and a further call after the
TTL has elapsed invokes the compute function again. -/
theorem C5_cache_hit_once {V E : Type} (st : CacheStore V) (key : Str)
    (v : V) (ttl dTTL : ℚ) (src : Option Str) (t0 t1 t2 : ℚ)
    (fn2 fn3 : Except E (Option V))
    (hmiss : st key = none) (httl : 0 < ttl)
    (h1 : t1 ≤ t0 + ttl * 1000) (h2 : t0 + ttl * 1000 < t2) :
    let c1 := getOrSet st key (Except.ok (some v) : Except E (Option V))
      (some ttl) dTTL src t0
    let c2 := getOrSet c1.2.1 key fn2 (some ttl) dTTL src t1
    let c3 := getOrSet c2.2.1 key fn3 (some ttl) dTTL src t2
    c1.2.2 = true ∧ c1.1 = Except.ok (some v) ∧
    c2.2.2 = false ∧ c2.1 = Except.ok (some v) ∧
    (c2.2.1 key).map CacheEntry.hitCount = some 1 ∧
    c3.2.2 = true := by
  have httl0 : ¬ ttl = 0 := ne_of_gt httl
  have e1 : getOrSet st key (Except.ok (some v) : Except E (Option V))
        (some ttl) dTTL src t0 =
      (Except.ok (some v), cacheSet st key v (some ttl) dTTL src t0, true) := by
    simp [getOrSet, cacheGet, hmiss]
  have hst1 : cacheSet st key v (some ttl) dTTL src t0 key =
      some ⟨v, t0 + ttl * 1000, 0, src⟩ := by
    simp [cacheSet, httl0]
  have hnexp : ¬ (t0 + ttl * 1000 < t1) := not_lt.mpr h1
  have e2 : getOrSet (cacheSet st key v (some ttl) dTTL src t0) key fn2
        (some ttl) dTTL src t1 =
      (Except.ok (some v),
       fun k => if k = key then
           some ⟨v, t0 + ttl * 1000, 1, src⟩
         else cacheSet st key v (some ttl) dTTL src t0 k,
       false) := by
    simp [getOrSet, cacheGet, hst1, hnexp]
  dsimp only
  rw [e1]
  dsimp only
  rw [e2]
  refine ⟨rfl, rfl, rfl, rfl, by simp, ?_⟩
  have hst2 : (fun k => if k = key then
        some (⟨v, t0 + ttl * 1000, 1, src⟩ : CacheEntry V)
      else cacheSet st key v (some ttl) dTTL src t0 k) key =
      some ⟨v, t0 + ttl * 1000, 1, src⟩ := by simp
  rcases fn3 with e | o
  · simp [getOrSet, cacheGet, hst2, h2]
  · rcases o with _ | v'
    · simp [getOrSet, cacheGet, hst2, h2]
    · simp [getOrSet, cacheGet, hst2, h2]

/-- Witness for C5 at concrete inputs (key "k", value 7, a 10-second
TTL, calls at 0 ms, 5000 ms and 10001 ms). -/
theorem C5_cache_hit_once_witness :
    ((fun _ => none : CacheStore ℕ) (strOf "k") = none ∧ (0:ℚ) < 10 ∧
      (5000:ℚ) ≤ 0 + 10 * 1000 ∧ (0:ℚ) + 10 * 1000 < 10001) ∧
    (let c1 := getOrSet (fun _ => none : CacheStore ℕ) (strOf "k")
        (Except.ok (some 7) : Except Unit (Option ℕ)) (some 10) 3600 none 0
     let c2 := getOrSet c1.2.1 (strOf "k")
        (Except.ok none : Except Unit (Option ℕ)) (some 10) 3600 none 5000
     let c3 := getOrSet c2.2.1 (strOf "k")
        (Except.ok none : Except Unit (Option ℕ)) (some 10) 3600 none 10001
     c1.2.2 = true ∧ c1.1 = Except.ok (some 7) ∧
     c2.2.2 = false ∧ c2.1 = Except.ok (some 7) ∧
     (c2.2.1 (strOf "k")).map CacheEntry.hitCount = some 1 ∧
     c3.2.2 = true) :=
  ⟨⟨rfl, by norm_num, by norm_num, by norm_num⟩,
   C5_cache_hit_once (fun _ => none) (strOf "k") 7 10 3600 none 0 5000 10001
     (Except.ok none) (Except.ok none) rfl (by norm_num) (by norm_num)
     (by norm_num)⟩

/-- C6: on a cache miss `getOrSet` invokes the compute function and
returns exactly its outcome — an error propagates to the caller and
leaves the store unchanged, a null result is returned un-stored, and a
proper value is stored with expiry `now + ttlSeconds * 1000` ms, hit
count 0 and the given source. -/
theorem C6_cache_miss_behaviour {V E : Type} (st : CacheStore V) (key : Str)
    (fn : Except E (Option V)) (ttl dTTL : ℚ) (src : Option Str) (now : ℚ)
    (hmiss : st key = none) (httl : ¬ ttl = 0) :
    let c := getOrSet st key fn (some ttl) dTTL src now
    c.2.2 = true ∧ c.1 = fn ∧
    (∀ e, fn = Except.error e → c.2.1 = st) ∧
    (fn = Except.ok none → c.2.1 = st) ∧
    (∀ v, fn = Except.ok (some v) →
      c.2.1 key = some ⟨v, now + ttl * 1000, 0, src⟩) := by
  dsimp only
  rcases fn with e | o
  · refine ⟨?_, ?_, ?_, ?_, ?_⟩ <;> simp [getOrSet, cacheGet, hmiss]
  · rcases o with _ | v
    · refine ⟨?_, ?_, ?_, ?_, ?_⟩ <;> simp [getOrSet, cacheGet, hmiss]
    · refine ⟨?_, ?_, ?_, ?_, ?_⟩ <;>
        simp [getOrSet, cacheGet, cacheSet, hmiss, httl]

/-- Witness for C6, exercising all three compute outcomes on an empty
store with key "k" and a 60-second TTL at time 0. -/
theorem C6_cache_miss_behaviour_witness :
    ((fun _ => none : CacheStore ℕ) (strOf "k") = none ∧ ¬ (60:ℚ) = 0) ∧
    (getOrSet (fun _ => none : CacheStore ℕ) (strOf "k")
      (Except.error 3 : Except ℕ (Option ℕ)) (some 60) 3600 none 0).1 =
      Except.error 3 ∧
    (getOrSet (fun _ => none : CacheStore ℕ) (strOf "k")
      (Except.ok none : Except ℕ (Option ℕ)) (some 60) 3600 none 0).2.1 =
      (fun _ => none) ∧
    (getOrSet (fun _ => none : CacheStore ℕ) (strOf "k")
      (Except.ok (some 7) : Except ℕ (Option ℕ)) (some 60) 3600 none
      0).2.1 (strOf "k") = some ⟨7, 0 + 60 * 1000, 0, none⟩ :=
  ⟨⟨rfl, by norm_num⟩,
   (C6_cache_miss_behaviour (fun _ => none) (strOf "k") (Except.error 3)
      60 3600 none 0 rfl (by norm_num)).2.1,
   (C6_cache_miss_behaviour (fun _ => none) (strOf "k") (Except.ok none)
      60 3600 none 0 rfl (by norm_num)).2.2.2.1 rfl,
   (C6_cache_miss_behaviour (fun _ => none) (strOf "k") (Except.ok (some 7))
      60 3600 none 0 rfl (by norm_num)).2.2.2.2 7 rfl⟩

/-! ## Facts about key generation -/

theorem lcChar_not_upper (c : ℕ) : ¬(65 ≤ lcChar c ∧ lcChar c ≤ 90) := by
  unfold lcChar
  split_ifs with h <;> omega

theorem toLowerL_not_upper (s : Str) :
    ∀ c ∈ toLowerL s, ¬(65 ≤ c ∧ c ≤ 90) := by
  intro c hc
  obtain ⟨a, _, rfl⟩ := List.mem_map.mp hc
  exact lcChar_not_upper a

theorem toBase36Go_chars :
    ∀ n : ℕ, ∀ c ∈ toBase36Go n, (48 ≤ c ∧ c ≤ 57) ∨ (97 ≤ c ∧ c ≤ 122) := by
  intro n
  induction n using Nat.strong_induction_on with
  | _ n ih =>
    intro c hc
    rw [toBase36Go] at hc
    by_cases h : n = 0
    · rw [if_pos h] at hc
      exact absurd hc (List.not_mem_nil c)
    · rw [if_neg h] at hc
      rcases List.mem_append.mp hc with h1 | h2
      · exact ih (n / 36) (Nat.div_lt_self (Nat.pos_of_ne_zero h)
          (by norm_num)) c h1
      · have hc36 : n % 36 < 36 := Nat.mod_lt n (by norm_num)
        have : c = digit36 (n % 36) := by simpa using h2
        subst this
        unfold digit36
        split_ifs with hd <;> omega

theorem toBase36_chars (n : ℕ) :
    ∀ c ∈ toBase36 n, (48 ≤ c ∧ c ≤ 57) ∨ (97 ≤ c ∧ c ≤ 122) := by
  intro c hc
  unfold toBase36 at hc
  by_cases h : n = 0
  · rw [if_pos h] at hc
    have : c = 48 := by simpa using hc
    omega
  · rw [if_neg h] at hc
    exact toBase36Go_chars n c hc

theorem hashString_chars (s : Str) :
    ∀ c ∈ hashString s, (48 ≤ c ∧ c ≤ 57) ∨ (97 ≤ c ∧ c ≤ 122) :=
  toBase36_chars (hashInt s).natAbs

theorem lcChar_fixed_of_not_upper (c : ℕ) (h : ¬(65 ≤ c ∧ c ≤ 90)) :
    lcChar c = c := by
  unfold lcChar
  rw [if_neg h]

theorem toLowerL_hashString (s : Str) :
    toLowerL (hashString s) = hashString s := by
  unfold toLowerL
  rw [List.map_congr_left, List.map_id]
  intro c hc
  refine lcChar_fixed_of_not_upper c ?_
  rcases hashString_chars s c hc with h | h <;> omega

/-- C7 counterexample: for the short input "new york" the generated key
embeds the input verbatim, so it contains an embedded space (code 32),
refuting the claim that keys contain no embedded whitespace. -/
theorem C7_counterexample :
    generateKey (strOf "gemini") (strOf "geocode") (strOf "new york") =
      strOf "gemini:geocode:new york" ∧
    32 ∈ generateKey (strOf "gemini") (strOf "geocode") (strOf "new york") := by
  decide

/-- C7 (amended): the derived key is
lower-cased(service) ++ ":" ++ lower-cased(operation) ++ ":" ++
input-or-hash, entirely lower-case (it contains no upper-case ASCII
letter); inputs longer than 100 characters are reduced to the base-36
hash, whose characters are all digits or lower-case letters, while short
inputs are embedded verbatim, lower-cased. (The key may contain
whitespace whenever a short input or a part name contains whitespace —
nothing strips it.) -/
theorem C7_key_format_amended (service operation input : Str) :
    (∀ c ∈ generateKey service operation input, ¬(65 ≤ c ∧ c ≤ 90)) ∧
    (input.length ≤ 100 →
      generateKey service operation input =
        toLowerL service ++ [58] ++ toLowerL operation ++ [58] ++
          toLowerL input) ∧
    (100 < input.length →
      generateKey service operation input =
        toLowerL service ++ [58] ++ toLowerL operation ++ [58] ++
          hashString input ∧
      ∀ c ∈ hashString input, (48 ≤ c ∧ c ≤ 57) ∨ (97 ≤ c ∧ c ≤ 122)) := by
  refine ⟨?_, ?_, ?_⟩
  · intro c hc
    unfold generateKey at hc
    exact toLowerL_not_upper _ c hc
  · intro h
    unfold generateKey
    rw [if_neg (not_lt.mpr h)]
    unfold toLowerL
    simp [lcChar]
  · intro h
    refine ⟨?_, hashString_chars input⟩
    unfold generateKey
    rw [if_pos h]
    have hfix := toLowerL_hashString input
    unfold toLowerL at hfix ⊢
    simp [lcChar, hfix]

/-- Witness for C7 (amended): the short branch on "new york" and the
long branch on a 101-character input. -/
theorem C7_key_format_amended_witness :
    ((strOf "new york").length ≤ 100 ∧
      generateKey (strOf "Gemini") (strOf "geocode") (strOf "new york") =
        toLowerL (strOf "Gemini") ++ [58] ++ toLowerL (strOf "geocode") ++
          [58] ++ toLowerL (strOf "new york")) ∧
    (100 < (strOf "aaaaaaaaaaaaaaaaaaaaaaaaaaaaaaaaaaaaaaaaaaaaaaaaaaaaaaaaaaaaaaaaaaaaaaaaaaaaaaaaaaaaaaaaaaaaaaaaaaaaa").length ∧
      ∀ c ∈ hashString (strOf "aaaaaaaaaaaaaaaaaaaaaaaaaaaaaaaaaaaaaaaaaaaaaaaaaaaaaaaaaaaaaaaaaaaaaaaaaaaaaaaaaaaaaaaaaaaaaaaaaaaaa"),
        (48 ≤ c ∧ c ≤ 57) ∨ (97 ≤ c ∧ c ≤ 122)) :=
  ⟨⟨by decide,
    (C7_key_format_amended (strOf "Gemini") (strOf "geocode")
      (strOf "new york")).2.1 (by decide)⟩,
   ⟨by decide,
    ((C7_key_format_amended (strOf "s") (strOf "o")
      (strOf "aaaaaaaaaaaaaaaaaaaaaaaaaaaaaaaaaaaaaaaaaaaaaaaaaaaaaaaaaaaaaaaaaaaaaaaaaaaaaaaaaaaaaaaaaaaaaaaaaaaaa")).2.2 (by decide)).2⟩⟩

/-- C1 counterexample: feeding the identical raw record (same non-null
url) twice through the official-updates pipeline yields a final ranked
list in which both copies survive, refuting the claimed collapse of
records sharing a non-null url. -/
theorem C1_counterexample :
    let u : Update := ⟨strOf "Flood warning", [],
      some (strOf "https://example.com/a"), [], none, UpdateType.alert,
      some 3, 0⟩
    let d : Disaster := ⟨[strOf "flood"], none⟩
    let out := fetchUpdatesBody [(strOf "fema", Except.ok [u, u])] d 20 0
    out.length = 2 ∧
    out.map Update.url = [some (strOf "https://example.com/a"),
      some (strOf "https://example.com/a")] := by
  dsimp only
  unfold fetchUpdatesBody
  simp only [List.map_cons, List.map_nil, List.flatten_cons, List.flatten_nil,
    List.append_nil]
  unfold filterRelevantUpdates
  rw [List.filter_cons_of_pos (by decide), List.filter_cons_of_pos (by decide),
    List.filter_nil]
  unfold rankUpdatesByRelevance sortByKeyDesc
  simp only [List.map_cons, List.map_nil, List.foldl_cons, List.foldl_nil]
  simp [insertByKey]

/-- C1 (amended): the pipeline performs no deduplication — any record
passing the relevance filter that is fed in twice survives twice in the
final ranked list, with both surviving copies carrying the same url. -/
theorem C1_no_dedup_amended (u : Update) (d : Disaster) (k : Str) (now : ℚ)
    (maxResults : ℕ) (hrel : relevantPred u d = true)
    (hmax : 2 ≤ maxResults) :
    (fetchUpdatesBody [(k, Except.ok [u, u])] d maxResults now).map
      Update.url = [u.url, u.url] := by
  have hrel' : relevantPred { u with source := k } d = true := hrel
  obtain ⟨m, rfl⟩ : ∃ m, maxResults = m + 2 := ⟨maxResults - 2, by omega⟩
  unfold fetchUpdatesBody
  simp only [List.map_cons, List.map_nil, List.flatten_cons, List.flatten_nil,
    List.append_nil]
  unfold filterRelevantUpdates
  rw [List.filter_cons_of_pos (by exact hrel'),
    List.filter_cons_of_pos (by exact hrel'), List.filter_nil]
  unfold rankUpdatesByRelevance sortByKeyDesc
  simp only [List.map_cons, List.map_nil, List.foldl_cons, List.foldl_nil]
  simp [insertByKey, List.take_succ_cons]

/-- Witness for C1 (amended) on a concrete flood update duplicated in a
single source's result. -/
theorem C1_no_dedup_amended_witness :
    relevantPred ⟨strOf "Flood warning", [],
      some (strOf "https://example.com/a"), [], none, UpdateType.alert,
      some 3, 0⟩ ⟨[strOf "flood"], none⟩ = true ∧ 2 ≤ 20 ∧
    (fetchUpdatesBody [(strOf "fema", Except.ok
        [⟨strOf "Flood warning", [], some (strOf "https://example.com/a"),
          [], none, UpdateType.alert, some 3, 0⟩,
         ⟨strOf "Flood warning", [], some (strOf "https://example.com/a"),
          [], none, UpdateType.alert, some 3, 0⟩])]
      ⟨[strOf "flood"], none⟩ 20 0).map Update.url =
      [some (strOf "https://example.com/a"),
       some (strOf "https://example.com/a")] :=
  ⟨by decide, by norm_num,
   C1_no_dedup_amended
     ⟨strOf "Flood warning", [], some (strOf "https://example.com/a"), [],
      none, UpdateType.alert, some 3, 0⟩
     ⟨[strOf "flood"], none⟩ (strOf "fema") 0 20 (by decide) (by norm_num)⟩

/-- C2 counterexample: when every selected adapter fails, the
official-updates aggregation returns the empty list — not a non-empty
mock-generated list — because each per-source failure is caught inside
the fan-out and contributes an empty partial result, and no empty-merge
check triggers the fallback. -/
theorem C2_counterexample :
    fetchUpdatesBody
      [(strOf "fema", Except.error (strOf "timeout")),
       (strOf "nws", Except.error (strOf "timeout"))]
      ⟨[strOf "flood"], some (strOf "Houston")⟩ 20 0 = [] := by
  decide

/-- C2 (amended): if every selected adapter fails (or none is selected),
the aggregation body returns the empty list; the mock fallback is
reached only when the aggregation body itself throws, which per-adapter
failures never cause. -/
theorem C2_all_fail_empty_amended (rs : List (Str × Except Str (List Update)))
    (d : Disaster) (maxResults : ℕ) (now : ℚ)
    (h : ∀ r ∈ rs, ∃ e, r.2 = Except.error e) :
    fetchUpdatesBody rs d maxResults now = [] := by
  have hall : (rs.map (fun kr =>
      match kr.2 with
      | Except.ok us => us.map (fun u => { u with source := kr.1 })
      | Except.error _ => ([] : List Update))).flatten = [] := by
    rw [List.flatten_eq_nil_iff]
    intro l hl
    obtain ⟨r, hr, rfl⟩ := List.mem_map.mp hl
    obtain ⟨e, he⟩ := h r hr
    rw [he]
  unfold fetchUpdatesBody
  rw [hall]
  simp [filterRelevantUpdates, rankUpdatesByRelevance, sortByKeyDesc]

/-- Witness for C2 (amended) on one concretely failed source. -/
theorem C2_all_fail_empty_amended_witness :
    (∀ r ∈ [(strOf "fema",
        (Except.error (strOf "timeout") : Except Str (List Update)))],
      ∃ e, r.2 = Except.error e) ∧
    fetchUpdatesBody
      [(strOf "fema", Except.error (strOf "timeout"))]
      ⟨[], none⟩ 5 0 = [] := by
  have h : ∀ r ∈ [(strOf "fema",
      (Except.error (strOf "timeout") : Except Str (List Update)))],
      ∃ e, r.2 = Except.error e := by
    intro r hr
    rw [List.mem_singleton] at hr
    subst hr
    exact ⟨strOf "timeout", rfl⟩
  exact ⟨h, C2_all_fail_empty_amended _ ⟨[], none⟩ 5 0 h⟩

/-- C4 counterexample: two updates with equal relevance scores but
different `publishedAt` timestamps keep their insertion order — the
older record stays first — so ties are not broken by the more recent
timestamp as claimed. -/
theorem C4_counterexample :
    let d : Disaster := ⟨[], none⟩
    let a : Update := ⟨strOf "Flood update", [], none, [], some 0,
      UpdateType.update, some 1, 0⟩
    let b : Update := ⟨strOf "Flood update", [], none, [], some 3600000,
      UpdateType.update, some 1, 0⟩
    let out := fetchUpdatesBody [(strOf "fema", Except.ok [a, b])] d 20
      36000000
    out.map Update.publishedAt = [some 0, some 3600000] ∧
    out.map Update.relevanceScore = [3/10, 3/10] := by
  have ha : relScore ⟨strOf "Flood update", [], none, strOf "fema", some 0,
      UpdateType.update, some 1, 0⟩ ⟨[], none⟩ 36000000 = 3/10 := by
    norm_num [relScore, tagBonus, locBonus, priBonus, recBonus]
  have hb : relScore ⟨strOf "Flood update", [], none, strOf "fema",
      some 3600000, UpdateType.update, some 1, 0⟩ ⟨[], none⟩ 36000000 =
      3/10 := by
    norm_num [relScore, tagBonus, locBonus, priBonus, recBonus]
  dsimp only
  unfold fetchUpdatesBody
  simp only [List.map_cons, List.map_nil, List.flatten_cons, List.flatten_nil,
    List.append_nil]
  unfold filterRelevantUpdates
  rw [List.filter_cons_of_pos (by decide), List.filter_cons_of_pos (by decide),
    List.filter_nil]
  unfold rankUpdatesByRelevance sortByKeyDesc
  simp only [List.map_cons, List.map_nil, List.foldl_cons, List.foldl_nil]
  simp only [insertByKey, ha, hb, lt_self_iff_false, if_false]
  simp [ha, hb]

/-- C4 (amended): the official-updates pipeline sorts in non-increasing
relevance-score order and is a stable permutation of the scored input —
ties keep insertion order, with `publishedAt` never consulted; the
social-posts pipeline sorts by `isUrgent` first and then by more recent
`createdAt` (never by relevance score), again as a stable permutation. -/
theorem C4_ranking_amended :
    (∀ (us : List Update) (d : Disaster) (now : ℚ),
      (rankUpdatesByRelevance us d now).Pairwise
        (fun a b => b.relevanceScore ≤ a.relevanceScore) ∧
      (rankUpdatesByRelevance us d now).Perm
        (us.map (fun u => { u with relevanceScore := relScore u d now })) ∧
      ∀ s : ℚ, (rankUpdatesByRelevance us d now).filter
          (fun u => decide (u.relevanceScore = s)) =
        (us.map (fun u => { u with relevanceScore := relScore u d now })).filter
          (fun u => decide (u.relevanceScore = s))) ∧
    (∀ (ps : List Post) (d : Disaster),
      (sortByKeyDesc postSortKey (ps.map (fun p => processPost p d))).Pairwise
        (fun a b => postSortKey b ≤ postSortKey a) ∧
      (sortByKeyDesc postSortKey (ps.map (fun p => processPost p d))).Perm
        (ps.map (fun p => processPost p d)) ∧
      ∀ k : Lex (ℚ × ℚ),
        (sortByKeyDesc postSortKey (ps.map (fun p => processPost p d))).filter
            (fun p => decide (postSortKey p = k)) =
          (ps.map (fun p => processPost p d)).filter
            (fun p => decide (postSortKey p = k))) := by
  refine ⟨fun us d now => ⟨?_, ?_, fun s => ?_⟩,
    fun ps d => ⟨?_, ?_, fun k => ?_⟩⟩
  · exact sortByKeyDesc_pairwise _ _
  · exact sortByKeyDesc_perm _ _
  · exact sortByKeyDesc_filter _ _ _
  · exact sortByKeyDesc_pairwise _ _
  · exact sortByKeyDesc_perm _ _
  · exact sortByKeyDesc_filter _ _ _
